import Mathlib

/-!
Verification of the execution engine of a Lagrangian particle-tracking
library (file `parcels/kernel.py`): the interpreted per-particle update
loop (`Kernel.execute_python`), the outer recovery loop (`Kernel.execute`),
kernel concatenation (`Kernel.merge`) and the compile-cache key
(`Kernel._cache_key`).

Python floats are modelled by exact rationals, particle attribute mutation
by explicit state passing on a `Particle` record, and the unbounded `while`
loops by an explicit fuel parameter: a `none` / `fuelOut` result means the
fuel ran out, and non-termination of the source loop is expressed as the
function returning `none` for every fuel value.
-/

namespace Parcels

/-- Modelled from the spec: the closed enumeration `ErrorCode` with values
`Success, Repeat, Delete, ErrorOutOfBounds, Error` (the enum itself lives in
`parcels/kernels/error.py`, which is not part of the excerpt). -/
inductive ErrorCode where
  | Success
  | Repeat
  | Delete
  | ErrorOutOfBounds
  | Error
deriving DecidableEq, Repr

/-- One particle row: the built-in attributes the executor reads and writes
(`time`, `dt`, `state`, `exception`) plus one user-declared scalar
attribute `uvar` standing for the user extensions of the schema.
Exceptions are modelled by a numeric tag. -/
structure Particle where
  time : ℚ
  dt : ℚ
  state : ErrorCode
  exception : Option ℕ
  uvar : ℤ
deriving DecidableEq, Repr

/-- Result of one invocation of a user kernel function: either a normal
return of `None` or an `ErrorCode` member (`ret`), or a raised exception
(`exc`), where `fse = true` marks a `FieldSamplingError` and `fse = false`
any other `Exception`; `e` is the exception value stored on the particle. -/
inductive PyRes where
  | ret (r : Option ErrorCode)
  | exc (fse : Bool) (e : ℕ)
deriving DecidableEq, Repr

/-- A user kernel function `pyfunc(p, grid, time, dt)`: it receives the
particle, the grid (of abstract type `G`), the current particle time and
the signed time step, may mutate the particle (returned second component)
and produces a `PyRes`. -/
def PyFunc (G : Type) : Type := Particle → G → ℚ → ℚ → PyRes × Particle

/-- Python `abs` on rationals. -/
def rabs (x : ℚ) : ℚ := if x < 0 then -x else x

/-- Python two-argument `min` on rationals (first argument on ties). -/
def rmin (a b : ℚ) : ℚ := if a ≤ b then a else b

/-- `dt_pos = min(abs(p.dt), abs(endtime - p.time))`, kernel.py line 125
(and recomputed on lines 144 and 148). -/
def dt_pos (endtime : ℚ) (p : Particle) : ℚ :=
  rmin (rabs p.dt) (rabs (endtime - p.time))

/-- `if res is not None: p.state = res`, kernel.py lines 137-138. -/
def applyState (res : Option ErrorCode) (p : Particle) : Particle :=
  match res with
  | none => p
  | some r => { p with state := r }

/-- `p.time += sign * dt_pos`, kernel.py line 143. -/
def advanceTime (sign dtp : ℚ) (p : Particle) : Particle :=
  { p with time := p.time + sign * dtp }

/-- Outcome of one iteration of the `while dt_pos > 0` body: `cont p dtp`
continues the loop with updated particle and recomputed `dt_pos`
(a `continue`), `halt p` leaves the loop (the `break`). -/
inductive StepRes where
  | cont (p : Particle) (dtp : ℚ)
  | halt (p : Particle)
deriving DecidableEq, Repr

/-- Body of the `while dt_pos > 0:` loop of `Kernel.execute_python`,
kernel.py lines 127-151: invoke `self.pyfunc(p, pset.grid, p.time,
sign * dt_pos)` inside `try`, turning a `FieldSamplingError` into
`ErrorOutOfBounds` and any other exception into `Error` while storing the
exception on the particle (lines 129-134); set `p.state` on any explicit
result (lines 137-138); then advance time and recompute `dt_pos` on
`None`/`Success`, recompute without advancing on `Repeat`, and `break` on
anything else (lines 141-151). -/
def pyBody {G : Type} (k : PyFunc G) (g : G) (endtime sign : ℚ)
    (p : Particle) (dtp : ℚ) : StepRes :=
  let rp : Option ErrorCode × Particle :=
    match k p g p.time (sign * dtp) with
    | (PyRes.ret res, p1) => (res, p1)
    | (PyRes.exc true e, p1) => (some ErrorCode.ErrorOutOfBounds, { p1 with exception := some e })
    | (PyRes.exc false e, p1) => (some ErrorCode.Error, { p1 with exception := some e })
  let res := rp.1
  let p2 := applyState res rp.2
  if res = none ∨ res = some ErrorCode.Success then
    let p3 := advanceTime sign dtp p2
    StepRes.cont p3 (dt_pos endtime p3)
  else if res = some ErrorCode.Repeat then
    StepRes.cont p2 (dt_pos endtime p2)
  else
    StepRes.halt p2

/-- The `while dt_pos > 0:` loop of `Kernel.execute_python` (kernel.py
lines 126-151), with an explicit fuel bounding the number of iterations;
`none` means the fuel was exhausted while the condition still held. -/
def pyLoop {G : Type} (k : PyFunc G) (g : G) (endtime sign : ℚ) :
    ℕ → Particle → ℚ → Option Particle
  | 0, p, dtp => if 0 < dtp then none else some p
  | n + 1, p, dtp =>
    if 0 < dtp then
      match pyBody k g endtime sign p dtp with
      | StepRes.cont p1 dtp1 => pyLoop k g endtime sign n p1 dtp1
      | StepRes.halt p1 => some p1
    else some p

/-- `Kernel.execute_python(pset, endtime, dt)`, kernel.py lines 120-151:
`sign = 1. if dt > 0. else -1.`, then for each particle run the inner time
loop starting from `dt_pos = min(abs(p.dt), abs(endtime - p.time))`.
Particles are independent rows, so the sequential `for` over the set is a
`mapM`; `none` propagates fuel exhaustion of any row. -/
def execute_python {G : Type} (k : PyFunc G) (g : G) (endtime dt : ℚ)
    (fuel : ℕ) (ps : List Particle) : Option (List Particle) :=
  let sign : ℚ := if 0 < dt then 1 else -1
  ps.mapM (fun p => pyLoop k g endtime sign fuel p (dt_pos endtime p))

/-- Result of `Kernel.execute`: `ok ps` is a normal return with the final
particle set, `keyError` models the `KeyError` raised by the dictionary
lookup `recovery_map[p.state]` when the state has no entry, `fuelOut` marks
exhaustion of the fuel of one of the `while` loops (so divergence of the
source is `fuelOut` for every fuel). -/
inductive ExecRes where
  | ok (ps : List Particle)
  | keyError
  | fuelOut
deriving DecidableEq, Repr

/-- Modelled from the spec: the built-in recovery map
(`parcels.kernels.error.recovery_map`, not in the excerpt) maps at minimum
`ErrorOutOfBounds` and `Error` to default handlers that mark the particle
for deletion. -/
def recovery_base_map : ErrorCode → Option (Particle → Particle) :=
  fun ec =>
    match ec with
    | ErrorCode.ErrorOutOfBounds => some (fun p => { p with state := ErrorCode.Delete })
    | ErrorCode.Error => some (fun p => { p with state := ErrorCode.Delete })
    | _ => none

/-- `recovery_map = recovery_base_map.copy(); recovery_map.update(recovery)`,
kernel.py lines 164-165: the user overrides, as an association list whose
later entries win, layered over the base map. -/
def updateMap (m : ErrorCode → Option (Particle → Particle))
    (ov : List (ErrorCode × (Particle → Particle))) :
    ErrorCode → Option (Particle → Particle) :=
  ov.foldl (fun acc pr ec => if ec = pr.1 then some pr.2 else acc ec) m

/-- `remove_deleted`, kernel.py lines 156-160: drop every particle whose
state is `Delete`, keeping the others in order. -/
def remove_deleted (ps : List Particle) : List Particle :=
  ps.filter (fun p => decide (¬ p.state = ErrorCode.Delete))

/-- `error_particles = [p for p in pset.particles if p.state not in
[ErrorCode.Success, ErrorCode.Repeat]]`, kernel.py lines 177-178. -/
def error_particles (ps : List Particle) : List Particle :=
  ps.filter (fun p =>
    decide (¬ (p.state = ErrorCode.Success ∨ p.state = ErrorCode.Repeat)))

/-- One recovery application, kernel.py lines 182-184: look up
`recovery_map[p.state]` (a missing entry is the `KeyError`, hence `none`),
then set `p.state = ErrorCode.Success`, then invoke the recovery kernel on
the particle. -/
def recover_particle (rmap : ErrorCode → Option (Particle → Particle))
    (p : Particle) : Option Particle :=
  match rmap p.state with
  | none => none
  | some rk => some (rk { p with state := ErrorCode.Success })

/-- The `for p in error_particles:` sweep of kernel.py lines 181-184.
Membership in `error_particles` is determined by `p.state`, and each row is
mutated independently, so the in-place mutation of the selected sublist is
the pointwise map guarded by the same state predicate. -/
def apply_recovery (rmap : ErrorCode → Option (Particle → Particle))
    (ps : List Particle) : Option (List Particle) :=
  ps.mapM (fun p =>
    if p.state = ErrorCode.Success ∨ p.state = ErrorCode.Repeat then some p
    else recover_particle rmap p)

/-- The `while len(error_particles) > 0:` loop of `Kernel.execute`,
kernel.py lines 179-196: apply the recovery sweep, remove `Delete`
particles, re-run the core loop (the interpreted path), recompute the error
set, with fuel `fuelO` bounding the outer iterations and `fuelI` the fuel
handed to each core-loop run. -/
def execute_loop {G : Type} (k : PyFunc G) (g : G) (endtime dt : ℚ)
    (rmap : ErrorCode → Option (Particle → Particle)) (fuelI : ℕ) :
    ℕ → List Particle → ExecRes
  | 0, ps =>
    if 0 < (error_particles ps).length then ExecRes.fuelOut else ExecRes.ok ps
  | n + 1, ps =>
    if 0 < (error_particles ps).length then
      match apply_recovery rmap ps with
      | none => ExecRes.keyError
      | some ps1 =>
        match execute_python k g endtime dt fuelI (remove_deleted ps1) with
        | none => ExecRes.fuelOut
        | some ps2 => execute_loop k g endtime dt rmap fuelI n ps2
    else ExecRes.ok ps

/-- `Kernel.execute(pset, endtime, dt, recovery)`, kernel.py lines 153-196,
on the interpreted path (`ptype.uses_jit` false): build the recovery map,
run the core loop, remove `Delete` particles, then run the recovery
`while` loop. -/
def execute {G : Type} (k : PyFunc G) (g : G) (endtime dt : ℚ)
    (recovery : List (ErrorCode × (Particle → Particle)))
    (fuelI fuelO : ℕ) (ps : List Particle) : ExecRes :=
  let rmap := updateMap recovery_base_map recovery
  match execute_python k g endtime dt fuelI ps with
  | none => ExecRes.fuelOut
  | some ps1 => execute_loop k g endtime dt rmap fuelI fuelO (remove_deleted ps1)

/-- `execute` diverges on an input when every fuel assignment for the two
`while` loops ends in fuel exhaustion: the source loops forever. -/
def ExecDiverges {G : Type} (k : PyFunc G) (g : G) (endtime dt : ℚ)
    (recovery : List (ErrorCode × (Particle → Particle)))
    (ps : List Particle) : Prop :=
  ∀ fuelI fuelO, execute k g endtime dt recovery fuelI fuelO ps = ExecRes.fuelOut

/-- Follows the spec's words (section 4.6 pseudocode, one iteration):
`res = KERNEL(p, grid, p.time, sign*dt_remaining)` with
`OutOfBounds → res = ErrorOutOfBounds, p.exception = err` and
`any other → res = Error, p.exception = err`; then
`if res is not None: p.state = res`; then `switch (res or Success)`:
on `Success` advance `p.time` by `sign*dt_remaining` and recompute
`dt_remaining = min(|p.dt|, |endtime - p.time|)`; on `Repeat` recompute
without advancing; otherwise `break`. -/
def specPyBody {G : Type} (k : PyFunc G) (g : G) (endtime sign : ℚ)
    (p : Particle) (dtp : ℚ) : StepRes :=
  let rp : Option ErrorCode × Particle :=
    match k p g p.time (sign * dtp) with
    | (PyRes.ret res, p1) => (res, p1)
    | (PyRes.exc true e, p1) => (some ErrorCode.ErrorOutOfBounds, { p1 with exception := some e })
    | (PyRes.exc false e, p1) => (some ErrorCode.Error, { p1 with exception := some e })
  let res := rp.1
  let p2 :=
    match res with
    | none => rp.2
    | some r => { rp.2 with state := r }
  match res.getD ErrorCode.Success with
  | ErrorCode.Success =>
    let p3 := { p2 with time := p2.time + sign * dtp }
    StepRes.cont p3 (rmin (rabs p3.dt) (rabs (endtime - p3.time)))
  | ErrorCode.Repeat =>
    StepRes.cont p2 (rmin (rabs p2.dt) (rabs (endtime - p2.time)))
  | _ => StepRes.halt p2

/-- Follows the spec's words: `while dt_remaining > 0:` around
`specPyBody`, fuel-bounded like `pyLoop`. -/
def specPyLoop {G : Type} (k : PyFunc G) (g : G) (endtime sign : ℚ) :
    ℕ → Particle → ℚ → Option Particle
  | 0, p, dtp => if 0 < dtp then none else some p
  | n + 1, p, dtp =>
    if 0 < dtp then
      match specPyBody k g endtime sign p dtp with
      | StepRes.cont p1 dtp1 => specPyLoop k g endtime sign n p1 dtp1
      | StepRes.halt p1 => some p1
    else some p

/-- Follows the spec's words (section 4.6): `for each particle p: sign = +1
if dt > 0 else -1; dt_remaining = min(|p.dt|, |endtime - p.time|)`, then
the inner `while` loop. -/
def spec_execute_python {G : Type} (k : PyFunc G) (g : G) (endtime dt : ℚ)
    (fuel : ℕ) (ps : List Particle) : Option (List Particle) :=
  let sign : ℚ := if 0 < dt then 1 else -1
  ps.mapM (fun p => specPyLoop k g endtime sign fuel p (rmin (rabs p.dt) (rabs (endtime - p.time))))

/-- Follows the spec's words (claim C3 / spec section 4.6 step 3): for each
particle of the error set, look up `recovery_map[p.state]`, set
`p.state = Success`, then invoke the recovery kernel on it; particles
outside the error set are untouched. -/
def spec_recovery_sweep (rmap : ErrorCode → Option (Particle → Particle))
    (ps : List Particle) : Option (List Particle) :=
  ps.mapM (fun p =>
    if p.state = ErrorCode.Success ∨ p.state = ErrorCode.Repeat then some p
    else (rmap p.state).map (fun rk => rk { p with state := ErrorCode.Success }))

/-- Follows the spec's words (section 4.6 steps 2-3): the error set is
carried explicitly; `while err_set is non-empty:` apply the recovery sweep,
remove `Delete` particles, re-run the core loop, recompute `err_set`. -/
def spec_execute_loop {G : Type} (k : PyFunc G) (g : G) (endtime dt : ℚ)
    (rmap : ErrorCode → Option (Particle → Particle)) (fuelI : ℕ) :
    ℕ → List Particle → List Particle → ExecRes
  | 0, ps, errs => if errs.isEmpty then ExecRes.ok ps else ExecRes.fuelOut
  | n + 1, ps, errs =>
    if errs.isEmpty then ExecRes.ok ps
    else
      match spec_recovery_sweep rmap ps with
      | none => ExecRes.keyError
      | some ps1 =>
        let ps2 := (ps1.filter (fun p => decide (¬ p.state = ErrorCode.Delete)))
        match spec_execute_python k g endtime dt fuelI ps2 with
        | none => ExecRes.fuelOut
        | some ps3 =>
          spec_execute_loop k g endtime dt rmap fuelI n ps3 (error_particles ps3)

/-- Follows the spec's words (claim C3): after the core loop, remove every
`Delete` particle, collect the particles whose state is neither `Success`
nor `Repeat`, and run the recovery `while` loop on that set. -/
def spec_execute {G : Type} (k : PyFunc G) (g : G) (endtime dt : ℚ)
    (recovery : List (ErrorCode × (Particle → Particle)))
    (fuelI fuelO : ℕ) (ps : List Particle) : ExecRes :=
  let rmap := updateMap recovery_base_map recovery
  match spec_execute_python k g endtime dt fuelI ps with
  | none => ExecRes.fuelOut
  | some ps1 =>
    let ps2 := ps1.filter (fun p => decide (¬ p.state = ErrorCode.Delete))
    spec_execute_loop k g endtime dt rmap fuelI fuelO ps2 (error_particles ps2)

/-- Outcome of executing a sequence of kernel-body statements: fell off the
end (a Python function body that ends without `return` returns `None`), hit
an explicit `return`, or raised an exception. -/
inductive StmtRes where
  | normal (p : Particle)
  | retval (r : Option ErrorCode) (p : Particle)
  | raised (fse : Bool) (e : ℕ) (p : Particle)

/-- One statement of a kernel body, shallowly embedded by its effect on the
particle given the call arguments `(particle, grid, time, dt)`. -/
def Stmt (G : Type) : Type := Particle → G → ℚ → ℚ → StmtRes

/-- Sequential execution of a statement list: a `return` or a raised
exception aborts the rest of the sequence, mirroring `exec` of the
(possibly merged) function AST. -/
def runBody {G : Type} : List (Stmt G) → Particle → G → ℚ → ℚ → StmtRes
  | [], p, _, _, _ => StmtRes.normal p
  | s :: rest, p, g, t, d =>
    match s p g t d with
    | StmtRes.normal p1 => runBody rest p1 g t d
    | StmtRes.retval r p1 => StmtRes.retval r p1
    | StmtRes.raised fse e p1 => StmtRes.raised fse e p1

/-- The `ParticleType` data the Kernel constructor reads: its `name`
(prefixed onto the kernel name, kernel.py line 74) and the `uses_jit` flag
selecting the execution path. -/
structure PType where
  name : String
  uses_jit : Bool
deriving DecidableEq, Repr

/-- The function AST held in `Kernel.py_ast`: the parameter list of the
header and the body statements. -/
structure FuncDef (G : Type) where
  args : List String
  body : List (Stmt G)

/-- The Kernel attributes set by `Kernel.__init__` on the explicit-argument
path used by `merge` (kernel.py lines 44-74): the grid and ptype
references, `funcname`, `funcvars`, `funccode`, `py_ast`, and
`name = ptype.name + funcname` (line 74). -/
structure Kernel (G : Type) where
  grid : G
  ptype : PType
  funcname : String
  funcvars : List String
  funccode : String
  py_ast : FuncDef G
  name : String

/-- `Kernel.__init__(grid, ptype, funcname=..., funccode=..., py_ast=...,
funcvars=...)`: store the given pieces and derive
`self.name = "%s%s" % (ptype.name, self.funcname)` (kernel.py line 74). -/
def Kernel.make {G : Type} (grid : G) (ptype : PType) (funcname : String)
    (funccode : String) (py_ast : FuncDef G) (funcvars : List String) :
    Kernel G :=
  { grid := grid, ptype := ptype, funcname := funcname,
    funcvars := funcvars, funccode := funccode, py_ast := py_ast,
    name := ptype.name ++ funcname }

/-- The Python function obtained by `exec`-ing the kernel's AST: run the
body statements in sequence; falling off the end returns `None`. -/
def Kernel.pyfunc {G : Type} (k : Kernel G) : PyFunc G :=
  fun p g t d =>
    match runBody k.py_ast.body p g t d with
    | StmtRes.normal p1 => (PyRes.ret none, p1)
    | StmtRes.retval r p1 => (PyRes.ret r, p1)
    | StmtRes.raised fse e p1 => (PyRes.exc fse e, p1)

/-- `Kernel.merge(self, kernel)`, kernel.py lines 198-205: concatenate the
funcnames, build a `FunctionDef` reusing `self.py_ast.args` with the two
bodies concatenated, and construct a Kernel from `self.grid`, `self.ptype`,
the concatenated sources and the concatenated funcvars. `Kernel.__add__`
calls exactly this when both operands are Kernels (lines 207-210). -/
def Kernel.merge {G : Type} (self kernel : Kernel G) : Kernel G :=
  let funcname := self.funcname ++ kernel.funcname
  let func_ast : FuncDef G :=
    { args := self.py_ast.args, body := self.py_ast.body ++ kernel.py_ast.body }
  Kernel.make self.grid self.ptype funcname
    (self.funccode ++ kernel.funccode) func_ast
    (self.funcvars ++ kernel.funcvars)

namespace MD5

/-- Reduce to a 32-bit word. -/
def w32 (n : ℕ) : ℕ := n % 4294967296

/-- Bitwise complement of a 32-bit word (for `x < 2 ^ 32`). -/
def bnot32 (x : ℕ) : ℕ := 4294967295 - w32 x

/-- Left rotation of a 32-bit word by `s` bits (for `x < 2 ^ 32`,
`0 < s < 32`). -/
def rotl (x s : ℕ) : ℕ := w32 (x <<< s) ||| (x >>> (32 - s))

/-- The 64 MD5 round constants `floor(abs(sin(i + 1)) * 2 ^ 32)`. -/
def K : List ℕ :=
  [3614090360, 3905402710, 606105819, 3250441966, 4118548399, 1200080426,
   2821735955, 4249261313, 1770035416, 2336552879, 4294925233, 2304563134,
   1804603682, 4254626195, 2792965006, 1236535329, 4129170786, 3225465664,
   643717713, 3921069994, 3593408605, 38016083, 3634488961, 3889429448,
   568446438, 3275163606, 4107603335, 1163531501, 2850285829, 4243563512,
   1735328473, 2368359562, 4294588738, 2272392833, 1839030562, 4259657740,
   2763975236, 1272893353, 4139469664, 3200236656, 681279174, 3936430074,
   3572445317, 76029189, 3654602809, 3873151461, 530742520, 3299628645,
   4096336452, 1126891415, 2878612391, 4237533241, 1700485571, 2399980690,
   4293915773, 2240044497, 1873313359, 4264355552, 2734768916, 1309151649,
   4149444226, 3174756917, 718787259, 3951481745]

/-- The per-round left-rotation amounts. -/
def S : List ℕ :=
  [7, 12, 17, 22, 7, 12, 17, 22, 7, 12, 17, 22, 7, 12, 17, 22,
   5, 9, 14, 20, 5, 9, 14, 20, 5, 9, 14, 20, 5, 9, 14, 20,
   4, 11, 16, 23, 4, 11, 16, 23, 4, 11, 16, 23, 4, 11, 16, 23,
   6, 10, 15, 21, 6, 10, 15, 21, 6, 10, 15, 21, 6, 10, 15, 21]

/-- The round mixing function: F, G, H, I by round quarter. -/
def mix (i b c d : ℕ) : ℕ :=
  if i < 16 then (b &&& c) ||| (bnot32 b &&& d)
  else if i < 32 then (d &&& b) ||| (bnot32 d &&& c)
  else if i < 48 then b ^^^ c ^^^ d
  else c ^^^ (b ||| bnot32 d)

/-- The message-word index used in round `i`. -/
def gIndex (i : ℕ) : ℕ :=
  if i < 16 then i
  else if i < 32 then (5 * i + 1) % 16
  else if i < 48 then (3 * i + 5) % 16
  else (7 * i) % 16

/-- One MD5 round on the state `(a, b, c, d)` with message accessor `M`. -/
def round (M : ℕ → ℕ) (st : ℕ × ℕ × ℕ × ℕ) (i : ℕ) : ℕ × ℕ × ℕ × ℕ :=
  let a := st.1
  let b := st.2.1
  let c := st.2.2.1
  let d := st.2.2.2
  let f := w32 (mix i b c d + a + K.getD i 0 + M (gIndex i))
  (d, w32 (b + rotl f (S.getD i 0)), b, c)

/-- Little-endian 32-bit word at byte offset `off` of the byte list. -/
def le4 (bs : List ℕ) (off : ℕ) : ℕ :=
  bs.getD off 0 + 256 * bs.getD (off + 1) 0 + 65536 * bs.getD (off + 2) 0 +
    16777216 * bs.getD (off + 3) 0

/-- Process the 64-byte chunk at index `idx`: 64 rounds, then add the
round output into the incoming state, word-wise mod `2 ^ 32`. -/
def processChunk (bs : List ℕ) (idx : ℕ) (st : ℕ × ℕ × ℕ × ℕ) :
    ℕ × ℕ × ℕ × ℕ :=
  let r := (List.range 64).foldl (round (fun g => le4 bs (64 * idx + 4 * g))) st
  (w32 (st.1 + r.1), w32 (st.2.1 + r.2.1), w32 (st.2.2.1 + r.2.2.1),
   w32 (st.2.2.2 + r.2.2.2))

/-- The `n` low-order bytes of `w`, little-endian. -/
def toLE (w : ℕ) : ℕ → List ℕ
  | 0 => []
  | n + 1 => w % 256 :: toLE (w / 256) n

/-- MD5 padding: append `0x80`, zero-fill to 56 mod 64, then the original
bit length as a little-endian 64-bit quantity. -/
def padded (msg : List ℕ) : List ℕ :=
  msg ++ [128] ++ List.replicate ((120 - (msg.length + 1) % 64) % 64) 0 ++
    toLE (8 * msg.length % 18446744073709551616) 8

/-- The 16-byte MD5 digest of a byte list. -/
def digest (msg : List ℕ) : List ℕ :=
  let bs := padded msg
  let st := (List.range (bs.length / 64)).foldl
    (fun st i => processChunk bs i st)
    (1732584193, 4023233417, 2562383102, 271733878)
  toLE st.1 4 ++ toLE st.2.1 4 ++ toLE st.2.2.1 4 ++ toLE st.2.2.2 4

/-- Two lowercase hex characters of one byte (`Nat.digitChar` yields
`0-9a-f` on inputs below 16). -/
def byteHex (b : ℕ) : List Char :=
  [Nat.digitChar (b / 16 % 16), Nat.digitChar (b % 16)]

/-- Lowercase hex string of a byte list. -/
def hexString (bs : List ℕ) : String := String.mk (bs.map byteHex).flatten

/-- UTF-8 encoding of one code point. -/
def utf8Bytes (c : ℕ) : List ℕ :=
  if c < 128 then [c]
  else if c < 2048 then [192 + c / 64, 128 + c % 64]
  else if c < 65536 then [224 + c / 4096, 128 + c / 64 % 64, 128 + c % 64]
  else [240 + c / 262144, 128 + c / 4096 % 64, 128 + c / 64 % 64, 128 + c % 64]

/-- UTF-8 bytes of a string (`key.encode('utf-8')`). -/
def strBytes (s : String) : List ℕ := (s.data.map (fun ch => utf8Bytes ch.toNat)).flatten

/-- `md5(key.encode('utf-8')).hexdigest()`. -/
def hexdigest (s : String) : String := hexString (digest (strBytes s))

end MD5

/-- The unit-tag object of a Field; `class_name` is
`field.units.__class__.__name__`. -/
structure FieldUnits where
  class_name : String
deriving DecidableEq, Repr

/-- The attributes of a JIT Kernel that the `_cache_key` property reads
(kernel.py lines 94-99): `self.name` (set on line 74 as
`ptype.name + funcname`), `self.ptype._cache_key` (the ParticleType schema
key, computed in code outside the excerpt), and `self.field_args`, the
ordered mapping from field name to field produced by the KernelGenerator
(also outside the excerpt). -/
structure JitKernel where
  name : String
  ptype_cache_key : String
  field_args : List (String × FieldUnits)
deriving DecidableEq, Repr

/-- `field_keys = "-".join(["%s:%s" % (name, field.units.__class__.__name__)
for name, field in self.field_args.items()])`, kernel.py lines 96-97. -/
def field_keys (fa : List (String × FieldUnits)) : String :=
  String.intercalate "-" (fa.map (fun nf => nf.1 ++ ":" ++ nf.2.class_name))

/-- `Kernel._cache_key`, kernel.py lines 94-99:
`key = self.name + self.ptype._cache_key + field_keys` and
`md5(key.encode('utf-8')).hexdigest()`. -/
def JitKernel.cache_key (k : JitKernel) : String :=
  MD5.hexdigest (k.name ++ k.ptype_cache_key ++ field_keys k.field_args)

/-- Follows the spec's words: the `"-"`-joined list of entries
`field_name ":" unit_tag_class`, written as a direct recursion on the
entry list. -/
def spec_join_entries : List (String × FieldUnits) → String
  | [] => ""
  | [nf] => nf.1 ++ ":" ++ nf.2.class_name
  | nf :: rest => nf.1 ++ ":" ++ nf.2.class_name ++ "-" ++ spec_join_entries rest

/-- Follows the spec's words:
`md5( name || ptype._cache_key || "-".join(field_name ":" unit_tag_class) )`. -/
def spec_cache_key (k : JitKernel) : String :=
  MD5.hexdigest (k.name ++ k.ptype_cache_key ++ spec_join_entries k.field_args)

/-! Concrete kernels and particles used by counterexamples and witnesses. -/

/-- A user kernel that always returns `ErrorCode.Repeat` and leaves the
particle untouched. -/
def kRepeat {G : Type} : PyFunc G :=
  fun p _ _ _ => (PyRes.ret (some ErrorCode.Repeat), p)

/-- A user kernel that always raises a non-sampling exception with tag `e`. -/
def kRaise {G : Type} (e : ℕ) : PyFunc G :=
  fun p _ _ _ => (PyRes.exc false e, p)

/-- A user kernel that always returns `None` and leaves the particle
untouched. -/
def kNone {G : Type} : PyFunc G :=
  fun p _ _ _ => (PyRes.ret none, p)

/-- A user kernel that returns `Repeat` on its first invocation (flagged by
`uvar`) and `None` afterwards. -/
def c8_kernel : PyFunc Unit :=
  fun p _ _ _ =>
    if p.uvar = 0 then (PyRes.ret (some ErrorCode.Repeat), { p with uvar := 1 })
    else (PyRes.ret none, p)

/-- A user kernel that always raises a `FieldSamplingError` with tag 5. -/
def c4_kernel : PyFunc Unit :=
  fun p _ _ _ => (PyRes.exc true 5, p)

/-- A particle at `time = 0` with `dt = 1` and a live state. -/
def c2_particle : Particle :=
  { time := 0, dt := 1, state := ErrorCode.Success, exception := none, uvar := 0 }

/-- A particle already at the end time `1`. -/
def c2_particle_end : Particle :=
  { time := 1, dt := 1, state := ErrorCode.Success, exception := none, uvar := 0 }

/-- A particle at `time = 0` with `dt = 2` and a live state. -/
def c5_particle : Particle :=
  { time := 0, dt := 2, state := ErrorCode.Success, exception := none, uvar := 0 }

/-- The starting particle of the C8 run. -/
def c8_particle : Particle :=
  { time := 0, dt := 1, state := ErrorCode.Success, exception := none, uvar := 0 }

/-- The C8 particle after the first iteration: state `Repeat`, flag set. -/
def c8_mid : Particle :=
  { time := 0, dt := 1, state := ErrorCode.Repeat, exception := none, uvar := 1 }

/-- The C8 particle after the second (advancing) iteration. -/
def c8_final : Particle :=
  { time := 1, dt := 1, state := ErrorCode.Repeat, exception := none, uvar := 1 }

/-- A particle already at the end time `2`, with a user attribute. -/
def c10_particle : Particle :=
  { time := 2, dt := 1, state := ErrorCode.Success, exception := none, uvar := 5 }

/-! Helper lemmas about the inner loop. -/

/-- One body iteration agrees between the source translation and the spec
pseudocode translation. -/
theorem pyBody_eq_spec {G : Type} (k : PyFunc G) (g : G) (endtime sign : ℚ)
    (p : Particle) (dtp : ℚ) :
    pyBody k g endtime sign p dtp = specPyBody k g endtime sign p dtp := by
  unfold pyBody specPyBody
  rcases h : k p g p.time (sign * dtp) with ⟨r, p1⟩
  cases r with
  | ret res =>
    cases res with
    | none => simp [applyState, advanceTime, dt_pos]
    | some ec => cases ec <;> simp [applyState, advanceTime, dt_pos]
  | exc fse e =>
    cases fse <;> simp [applyState, advanceTime, dt_pos]

/-- The fuel-bounded inner loops agree between source and spec. -/
theorem pyLoop_eq_spec {G : Type} (k : PyFunc G) (g : G) (endtime sign : ℚ) :
    ∀ (n : ℕ) (p : Particle) (dtp : ℚ),
      pyLoop k g endtime sign n p dtp = specPyLoop k g endtime sign n p dtp := by
  intro n
  induction n with
  | zero => intro p dtp; rfl
  | succ n ih =>
    intro p dtp
    show (if 0 < dtp then
        match pyBody k g endtime sign p dtp with
        | StepRes.cont p1 dtp1 => pyLoop k g endtime sign n p1 dtp1
        | StepRes.halt p1 => some p1
      else some p) = _
    rw [pyBody_eq_spec]
    show _ = (if 0 < dtp then
        match specPyBody k g endtime sign p dtp with
        | StepRes.cont p1 dtp1 => specPyLoop k g endtime sign n p1 dtp1
        | StepRes.halt p1 => some p1
      else some p)
    by_cases h0 : 0 < dtp
    · simp only [if_pos h0]
      cases specPyBody k g endtime sign p dtp with
      | cont p1 dtp1 => exact ih p1 dtp1
      | halt p1 => rfl
    · simp only [if_neg h0]

/-- The interpreted executor agrees with the spec pseudocode, for every
input and fuel. -/
theorem execute_python_eq_spec {G : Type} (k : PyFunc G) (g : G)
    (endtime dt : ℚ) (fuel : ℕ) (ps : List Particle) :
    execute_python k g endtime dt fuel ps = spec_execute_python k g endtime dt fuel ps := by
  have hfun : (fun p => pyLoop k g endtime (if 0 < dt then (1 : ℚ) else -1) fuel p (dt_pos endtime p))
      = (fun p => specPyLoop k g endtime (if 0 < dt then (1 : ℚ) else -1) fuel p
          (rmin (rabs p.dt) (rabs (endtime - p.time)))) := by
    funext p
    rw [pyLoop_eq_spec]
    rfl
  show ps.mapM (fun p => pyLoop k g endtime (if 0 < dt then (1 : ℚ) else -1) fuel p (dt_pos endtime p))
      = ps.mapM (fun p => specPyLoop k g endtime (if 0 < dt then (1 : ℚ) else -1) fuel p
          (rmin (rabs p.dt) (rabs (endtime - p.time))))
  rw [hfun]

/-- C1: In the interpreted execution path, for every particle the executor
runs an inner loop with `dt_remaining = min(|p.dt|, |endtime - p.time|)`;
while `dt_remaining > 0` it invokes the kernel with
`(p, grid, p.time, sign * dt_remaining)` where `sign` is `+1` if `dt > 0`
and `-1` otherwise; on `Success` (or no explicit return) it advances
`p.time` by `sign * dt_remaining` and recomputes `dt_remaining`; on
`Repeat` it recomputes `dt_remaining` without advancing; on any other
result it leaves the inner loop. Formally: the source translation
`execute_python` coincides with the translation `spec_execute_python` of
the spec pseudocode on every input and every fuel. -/
theorem c1_inner_loop_follows_spec {G : Type} (k : PyFunc G) (g : G)
    (endtime dt : ℚ) (fuel : ℕ) (ps : List Particle) :
    execute_python k g endtime dt fuel ps = spec_execute_python k g endtime dt fuel ps :=
  execute_python_eq_spec k g endtime dt fuel ps

/-- If the loop condition fails at entry, the inner loop returns the
particle unchanged whatever the fuel. -/
theorem pyLoop_of_nonpos {G : Type} (k : PyFunc G) (g : G) (endtime sign : ℚ)
    (n : ℕ) (p : Particle) (dtp : ℚ) (h : ¬ 0 < dtp) :
    pyLoop k g endtime sign n p dtp = some p := by
  cases n <;> simp [pyLoop, h]

/-- A kernel that always returns `Repeat` and leaves the particle unchanged
makes the inner loop exhaust any fuel whenever `dt_pos` is positive at
entry: the `while` loop of the source never exits. -/
theorem repeat_loop_none {G : Type} (k : PyFunc G) (g : G) (endtime sign : ℚ)
    (hk : ∀ (q : Particle) (h : G) (t d : ℚ), k q h t d = (PyRes.ret (some ErrorCode.Repeat), q)) :
    ∀ (n : ℕ) (p : Particle), 0 < dt_pos endtime p →
      pyLoop k g endtime sign n p (dt_pos endtime p) = none := by
  intro n
  induction n with
  | zero => intro p hp; simp [pyLoop, hp]
  | succ n ih =>
    intro p hp
    have hb : pyBody k g endtime sign p (dt_pos endtime p)
        = StepRes.cont { p with state := ErrorCode.Repeat }
            (dt_pos endtime { p with state := ErrorCode.Repeat }) := by
      simp [pyBody, hk, applyState]
    have hsame : dt_pos endtime { p with state := ErrorCode.Repeat } = dt_pos endtime p := rfl
    simp only [pyLoop, if_pos hp, hb]
    rw [hsame]
    exact ih { p with state := ErrorCode.Repeat } (by simpa [hsame] using hp)

/-- C2 counterexample: a particle strictly before `endtime` whose kernel
returns `Repeat` on every invocation makes `Kernel.execute` spin forever in
the inner `while dt_pos > 0` loop (`dt_pos` is recomputed unchanged each
iteration), so `execute` does not terminate at all — for every fuel both
loops end in exhaustion, and no normal return exists. -/
theorem c2_counterexample :
    ExecDiverges (kRepeat (G := Unit)) () 1 1 [] [c2_particle] := by
  intro fI fO
  have hloop : pyLoop (kRepeat (G := Unit)) () 1 1 fI c2_particle (dt_pos 1 c2_particle) = none :=
    repeat_loop_none kRepeat () 1 1 (fun _ _ _ _ => rfl) fI c2_particle
      (by norm_num [dt_pos, rmin, rabs, c2_particle])
  have hcore : execute_python (kRepeat (G := Unit)) () 1 1 fI [c2_particle] = none := by
    show List.mapM _ [c2_particle] = none
    rw [List.mapM_cons]
    have hs : (if (0 : ℚ) < 1 then (1 : ℚ) else -1) = 1 := by norm_num
    rw [hs, hloop]
    rfl
  simp [execute, hcore]

/-- C2 corrected: for a live particle whose kernel returns `Repeat` on
every invocation and leaves the particle unchanged, `execute` terminates
exactly when the particle has no time remaining at entry
(`min(|p.dt|, |endtime - p.time|) = 0`, e.g. it already sits at
`endtime`), in which case the particle — its `time` in particular — is
returned unchanged; when time remains, `execute` never terminates (every
fuel is exhausted), so it does not stop "once endtime is reached". -/
theorem c2_amended {G : Type} (k : PyFunc G) (g : G) (endtime dt : ℚ) (p : Particle)
    (hk : ∀ (q : Particle) (h : G) (t d : ℚ), k q h t d = (PyRes.ret (some ErrorCode.Repeat), q))
    (hs : p.state = ErrorCode.Success ∨ p.state = ErrorCode.Repeat) :
    ∀ fuelI fuelO, execute k g endtime dt [] fuelI fuelO [p]
      = if 0 < dt_pos endtime p then ExecRes.fuelOut else ExecRes.ok [p] := by
  intro fI fO
  by_cases hpos : 0 < dt_pos endtime p
  · rw [if_pos hpos]
    have hloop : pyLoop k g endtime (if 0 < dt then (1 : ℚ) else -1) fI p (dt_pos endtime p) = none :=
      repeat_loop_none k g endtime _ hk fI p hpos
    have hcore : execute_python k g endtime dt fI [p] = none := by
      show List.mapM _ [p] = none
      rw [List.mapM_cons, hloop]
      rfl
    simp [execute, hcore]
  · rw [if_neg hpos]
    have hcore : execute_python k g endtime dt fI [p] = some [p] := by
      show List.mapM _ [p] = some [p]
      rw [List.mapM_cons]
      rw [pyLoop_of_nonpos k g endtime _ fI p _ hpos]
      rfl
    have hlive : remove_deleted [p] = [p] := by
      rcases hs with h | h <;> simp [remove_deleted, h]
    have herr : error_particles [p] = [] := by
      rcases hs with h | h <;> simp [error_particles, h]
    cases fO <;> simp [execute, hcore, hlive, execute_loop, herr]

/-- Witness for the terminating half of the corrected C2: the concrete
always-`Repeat` kernel on a particle already at `endtime` returns normally
with the particle (and its `time`) unchanged. -/
theorem c2_amended_witness :
    execute (kRepeat (G := Unit)) () 1 1 [] 3 3 [c2_particle_end] = ExecRes.ok [c2_particle_end] := by
  have h := c2_amended kRepeat () 1 1 c2_particle_end (fun _ _ _ _ => rfl) (Or.inl rfl) 3 3
  rwa [if_neg (by norm_num [dt_pos, rmin, rabs, c2_particle_end])] at h

/-- The recovery sweep of the source agrees with the sweep written from the
spec wording. -/
theorem apply_recovery_eq_sweep (rmap : ErrorCode → Option (Particle → Particle))
    (ps : List Particle) :
    apply_recovery rmap ps = spec_recovery_sweep rmap ps := by
  unfold apply_recovery spec_recovery_sweep
  congr 1
  funext p
  by_cases h : p.state = ErrorCode.Success ∨ p.state = ErrorCode.Repeat
  · simp [h]
  · simp only [if_neg h]
    cases hr : rmap p.state <;> simp [recover_particle, hr]

/-- The recovery `while` loop of the source agrees with the spec wording
when the spec carries the error set of the current particle list. -/
theorem execute_loop_eq_spec {G : Type} (k : PyFunc G) (g : G) (endtime dt : ℚ)
    (rmap : ErrorCode → Option (Particle → Particle)) (fuelI : ℕ) :
    ∀ (n : ℕ) (ps : List Particle),
      execute_loop k g endtime dt rmap fuelI n ps
        = spec_execute_loop k g endtime dt rmap fuelI n ps (error_particles ps) := by
  intro n
  induction n with
  | zero =>
    intro ps
    show (if 0 < (error_particles ps).length then ExecRes.fuelOut else ExecRes.ok ps)
      = (if (error_particles ps).isEmpty then ExecRes.ok ps else ExecRes.fuelOut)
    cases h : error_particles ps <;> simp [h]
  | succ n ih =>
    intro ps
    show (if 0 < (error_particles ps).length then
        match apply_recovery rmap ps with
        | none => ExecRes.keyError
        | some ps1 =>
          match execute_python k g endtime dt fuelI (remove_deleted ps1) with
          | none => ExecRes.fuelOut
          | some ps2 => execute_loop k g endtime dt rmap fuelI n ps2
      else ExecRes.ok ps)
      = (if (error_particles ps).isEmpty then ExecRes.ok ps
        else
          match spec_recovery_sweep rmap ps with
          | none => ExecRes.keyError
          | some ps1 =>
            match spec_execute_python k g endtime dt fuelI
                (ps1.filter (fun p => decide (¬ p.state = ErrorCode.Delete))) with
            | none => ExecRes.fuelOut
            | some ps3 =>
              spec_execute_loop k g endtime dt rmap fuelI n ps3 (error_particles ps3))
    cases h : error_particles ps with
    | nil => simp [h]
    | cons a l =>
      simp only [h, List.length_cons, List.isEmpty_cons, Nat.succ_pos, if_pos, if_neg,
        Bool.false_eq_true, if_false]
      rw [apply_recovery_eq_sweep]
      cases hr : spec_recovery_sweep rmap ps with
      | none => rfl
      | some ps1 =>
        show (match execute_python k g endtime dt fuelI (remove_deleted ps1) with
          | none => ExecRes.fuelOut
          | some ps2 => execute_loop k g endtime dt rmap fuelI n ps2)
          = (match spec_execute_python k g endtime dt fuelI (remove_deleted ps1) with
          | none => ExecRes.fuelOut
          | some ps3 => spec_execute_loop k g endtime dt rmap fuelI n ps3 (error_particles ps3))
        rw [← execute_python_eq_spec]
        cases hx : execute_python k g endtime dt fuelI (remove_deleted ps1) with
        | none => rfl
        | some ps2 => exact ih ps2

/-- C3: After the core loop, `Kernel.execute` removes every particle whose
state is `Delete`, collects the particles whose state is neither `Success`
nor `Repeat`, and while that set is non-empty it, for each such particle,
looks up `recovery_map[p.state]`, sets `p.state = Success`, then invokes
the recovery kernel on it; it then removes `Delete` particles again,
re-runs the core loop, and recomputes the error set. Formally: the source
translation `execute` coincides with the translation `spec_execute` of
that wording on every input and every fuel. -/
theorem c3_execute_follows_spec {G : Type} (k : PyFunc G) (g : G)
    (endtime dt : ℚ) (recovery : List (ErrorCode × (Particle → Particle)))
    (fuelI fuelO : ℕ) (ps : List Particle) :
    execute k g endtime dt recovery fuelI fuelO ps
      = spec_execute k g endtime dt recovery fuelI fuelO ps := by
  show (match execute_python k g endtime dt fuelI ps with
    | none => ExecRes.fuelOut
    | some ps1 =>
      execute_loop k g endtime dt (updateMap recovery_base_map recovery) fuelI fuelO
        (remove_deleted ps1))
    = (match spec_execute_python k g endtime dt fuelI ps with
    | none => ExecRes.fuelOut
    | some ps1 =>
      spec_execute_loop k g endtime dt (updateMap recovery_base_map recovery) fuelI fuelO
        (ps1.filter (fun p => decide (¬ p.state = ErrorCode.Delete)))
        (error_particles (ps1.filter (fun p => decide (¬ p.state = ErrorCode.Delete)))))
  rw [← execute_python_eq_spec]
  cases hc : execute_python k g endtime dt fuelI ps with
  | none => rfl
  | some ps1 =>
    exact execute_loop_eq_spec k g endtime dt (updateMap recovery_base_map recovery)
      fuelI fuelO (remove_deleted ps1)

/-- C4: When a kernel invocation on a particle raises an out-of-bounds
sampling error (`fse = true`), the executor sets the particle state to
`ErrorOutOfBounds` and stores the exception on the particle; when it raises
any other exception (`fse = false`), it sets the state to `Error` and
stores the exception; in both cases the inner loop `break`s and returns the
particle normally — the per-particle error never propagates out of the
core loop (the model of the loop has no exception outcome at all: the two
`except` clauses of kernel.py lines 129-134 are total over kernel
failures). -/
theorem c4_exception_capture {G : Type} (k : PyFunc G) (g : G)
    (endtime sign dtp : ℚ) (p p1 : Particle) (fse : Bool) (e : ℕ) (n : ℕ)
    (hdt : 0 < dtp)
    (hk : k p g p.time (sign * dtp) = (PyRes.exc fse e, p1)) :
    pyBody k g endtime sign p dtp =
      StepRes.halt { p1 with
        state := if fse then ErrorCode.ErrorOutOfBounds else ErrorCode.Error,
        exception := some e } ∧
    pyLoop k g endtime sign (n + 1) p dtp =
      some { p1 with
        state := if fse then ErrorCode.ErrorOutOfBounds else ErrorCode.Error,
        exception := some e } := by
  have hb : pyBody k g endtime sign p dtp =
      StepRes.halt { p1 with
        state := if fse then ErrorCode.ErrorOutOfBounds else ErrorCode.Error,
        exception := some e } := by
    cases fse <;> simp [pyBody, hk, applyState]
  refine ⟨hb, ?_⟩
  simp [pyLoop, hdt, hb]

/-- The particle produced by the C4 witness run: state `ErrorOutOfBounds`,
exception tag 5 stored. -/
def c4_result : Particle :=
  { time := 0, dt := 1, state := ErrorCode.ErrorOutOfBounds, exception := some 5, uvar := 0 }

/-- Witness for C4: a concrete kernel raising a `FieldSamplingError` with
tag 5 leaves the loop with state `ErrorOutOfBounds` and the stored
exception. -/
theorem c4_witness :
    pyBody c4_kernel () 1 1 c2_particle 1 = StepRes.halt c4_result ∧
    pyLoop c4_kernel () 1 1 1 c2_particle 1 = some c4_result :=
  c4_exception_capture c4_kernel () 1 1 1 c2_particle c2_particle true 5 0 (by norm_num) rfl

/-- An always-raising kernel makes the loop body halt with state `Error`
and the exception stored. -/
theorem kRaise_body {G : Type} (g : G) (endtime sign dtp : ℚ) (e : ℕ) (p : Particle) :
    pyBody (kRaise (G := G) e) g endtime sign p dtp
      = StepRes.halt { p with state := ErrorCode.Error, exception := some e } := by
  simp [pyBody, kRaise, applyState]

/-- With positive `dt_pos` and any non-zero fuel, the inner loop under an
always-raising kernel stops after one iteration. -/
theorem kRaise_pyLoop {G : Type} (g : G) (endtime sign dtp : ℚ) (e : ℕ)
    (p : Particle) (m : ℕ) (h : 0 < dtp) :
    pyLoop (kRaise (G := G) e) g endtime sign (m + 1) p dtp
      = some { p with state := ErrorCode.Error, exception := some e } := by
  simp [pyLoop, h, kRaise_body]

/-- Core loop on one particle under an always-raising kernel. -/
theorem kRaise_core {G : Type} (g : G) (endtime dt : ℚ) (e : ℕ)
    (p : Particle) (m : ℕ) (h : 0 < dt_pos endtime p) :
    execute_python (kRaise (G := G) e) g endtime dt (m + 1) [p]
      = some [{ p with state := ErrorCode.Error, exception := some e }] := by
  show List.mapM _ [p] = _
  rw [List.mapM_cons, kRaise_pyLoop g endtime _ _ e p m h]
  rfl

/-- If a particle list reproduces itself through one recovery sweep plus
core-loop iteration while staying in error, the recovery `while` loop
exhausts every fuel. -/
theorem execute_loop_cycle {G : Type} (k : PyFunc G) (g : G) (endtime dt : ℚ)
    (rmap : ErrorCode → Option (Particle → Particle)) (fuelI : ℕ)
    (qs : List Particle)
    (hne : 0 < (error_particles qs).length)
    (hstep : ∃ ps1, apply_recovery rmap qs = some ps1 ∧
      execute_python k g endtime dt fuelI (remove_deleted ps1) = some qs) :
    ∀ fO, execute_loop k g endtime dt rmap fuelI fO qs = ExecRes.fuelOut := by
  intro fO
  induction fO with
  | zero => simp only [execute_loop, if_pos hne]
  | succ n ih =>
    obtain ⟨ps1, h1, h2⟩ := hstep
    simp only [execute_loop, if_pos hne, h1, h2]
    exact ih

/-- The recovery loop never terminates when the kernel always raises and
the user overrides the `Error` recovery with a handler that changes
nothing: the particle re-errors on every sweep and no fixed-point detection
exists. -/
theorem raise_exec_diverges {G : Type} (g : G) (endtime dt : ℚ) (e : ℕ)
    (p : Particle) (hpos : 0 < dt_pos endtime p) :
    ExecDiverges (kRaise (G := G) e) g endtime dt
      [(ErrorCode.Error, fun q => q)] [p] := by
  intro fI fO
  cases fI with
  | zero =>
    have hcore : execute_python (kRaise (G := G) e) g endtime dt 0 [p] = none := by
      show List.mapM _ [p] = none
      rw [List.mapM_cons]
      simp [pyLoop, hpos]
    simp [execute, hcore]
  | succ m =>
    have hcore : execute_python (kRaise (G := G) e) g endtime dt (m + 1) [p]
        = some [{ p with state := ErrorCode.Error, exception := some e }] :=
      kRaise_core g endtime dt e p m hpos
    have hrd : remove_deleted [{ p with state := ErrorCode.Error, exception := some e }]
        = [{ p with state := ErrorCode.Error, exception := some e }] := by
      simp [remove_deleted]
    have hmap : updateMap recovery_base_map [(ErrorCode.Error, fun q => q)] ErrorCode.Error
        = some (fun q => q) := rfl
    have hrec : apply_recovery (updateMap recovery_base_map [(ErrorCode.Error, fun q => q)])
        [{ p with state := ErrorCode.Error, exception := some e }]
        = some [{ p with state := ErrorCode.Success, exception := some e }] := by
      rw [apply_recovery, List.mapM_cons]
      simp only [recover_particle]
      simp [hmap, List.mapM.loop]
    have hcore2 : execute_python (kRaise (G := G) e) g endtime dt (m + 1)
        (remove_deleted [{ p with state := ErrorCode.Success, exception := some e }])
        = some [{ p with state := ErrorCode.Error, exception := some e }] := by
      have hrd2 : remove_deleted [{ p with state := ErrorCode.Success, exception := some e }]
          = [{ p with state := ErrorCode.Success, exception := some e }] := by
        simp [remove_deleted]
      rw [hrd2]
      exact kRaise_core g endtime dt e
        { p with state := ErrorCode.Success, exception := some e } m hpos
    have hne : 0 < (error_particles
        [{ p with state := ErrorCode.Error, exception := some e }]).length := by
      simp [error_particles]
    show (match execute_python (kRaise (G := G) e) g endtime dt (m + 1) [p] with
      | none => ExecRes.fuelOut
      | some ps1 =>
        execute_loop (kRaise (G := G) e) g endtime dt
          (updateMap recovery_base_map [(ErrorCode.Error, fun q => q)]) (m + 1) fO
          (remove_deleted ps1)) = ExecRes.fuelOut
    rw [hcore]
    show execute_loop (kRaise (G := G) e) g endtime dt
      (updateMap recovery_base_map [(ErrorCode.Error, fun q => q)]) (m + 1) fO
      (remove_deleted [{ p with state := ErrorCode.Error, exception := some e }]) = ExecRes.fuelOut
    rw [hrd]
    exact execute_loop_cycle (kRaise (G := G) e) g endtime dt
      (updateMap recovery_base_map [(ErrorCode.Error, fun q => q)]) (m + 1)
      [{ p with state := ErrorCode.Error, exception := some e }] hne
      ⟨[{ p with state := ErrorCode.Success, exception := some e }], hrec, hcore2⟩ fO

/-- C5 counterexample: a kernel that raises on every invocation, with the
`Error` recovery overridden by a handler that does not clear the cause,
reaches the claimed fixed point (the same one-element error set with the
same state on every sweep), yet `Kernel.execute` performs no detection and
no escalation: it loops forever — every fuel assignment ends in exhaustion
and no result of any kind is produced. -/
theorem c5_counterexample :
    ExecDiverges (kRaise (G := Unit) 7) () 1 1
      [(ErrorCode.Error, fun q => q)] [c5_particle] :=
  raise_exec_diverges () 1 1 7 c5_particle
    (by norm_num [dt_pos, rmin, rabs, c5_particle])

/-- C5 corrected: the executor contains no fixed-point detection and no
escalation to a programmer error. If the recovery handler does not clear
the cause of a particle error state (here: the kernel raises again on
every re-run and the override for `Error` changes nothing), the
`while err_set` loop of `Kernel.execute` repeats the identical sweep
forever and `execute` never returns. -/
theorem c5_amended {G : Type} (g : G) (endtime dt : ℚ) (e : ℕ) (p : Particle)
    (hpos : 0 < dt_pos endtime p) :
    ExecDiverges (kRaise (G := G) e) g endtime dt
      [(ErrorCode.Error, fun q => q)] [p] :=
  raise_exec_diverges g endtime dt e p hpos

/-- The particle of the C5 witness run. -/
def c5_particle2 : Particle :=
  { time := 1, dt := 3, state := ErrorCode.Success, exception := none, uvar := 0 }

/-- Witness for the corrected C5 at a concrete input. -/
theorem c5_amended_witness :
    ExecDiverges (kRaise (G := Unit) 3) () 2 1
      [(ErrorCode.Error, fun q => q)] [c5_particle2] :=
  c5_amended () 2 1 3 c5_particle2 (by norm_num [dt_pos, rmin, rabs, c5_particle2])

/-- C6: Kernel concatenation is associative: `(A + B) + C` and
`A + (B + C)` produce equal Kernel objects — in particular identical
`name`, body, recorded source `funccode` and variable list `funcvars` —
and executing them over any particle set yields pointwise-equal results. -/
theorem c6_merge_assoc {G : Type} (A B C : Kernel G) :
    (A.merge B).merge C = A.merge (B.merge C) ∧
    ∀ (endtime dt : ℚ) (fuel : ℕ) (ps : List Particle),
      execute_python ((A.merge B).merge C).pyfunc ((A.merge B).merge C).grid
          endtime dt fuel ps
        = execute_python (A.merge (B.merge C)).pyfunc (A.merge (B.merge C)).grid
          endtime dt fuel ps := by
  have h : (A.merge B).merge C = A.merge (B.merge C) := by
    cases A
    cases B
    cases C
    simp [Kernel.merge, Kernel.make, String.append_assoc, List.append_assoc]
  exact ⟨h, fun endtime dt fuel ps => by rw [h]⟩

/-- C7 counterexample: with a ParticleType named `"P"` and funcnames `"A"`
and `"B"`, the merged kernel's `name` attribute is `"PAB"` (the ptype name
is prefixed once, kernel.py line 74), not the concatenation
`A.name ++ B.name = "PAPB"` of the two `name` attributes. -/
def c7_ptype : PType := { name := "P", uses_jit := false }

/-- First concrete kernel of the C7 counterexample. -/
def c7_kernelA : Kernel Unit :=
  Kernel.make () c7_ptype "A" "def A(particle, grid, time, dt): pass"
    { args := ["particle", "grid", "time", "dt"], body := [] } ["particle"]

/-- Second concrete kernel of the C7 counterexample. -/
def c7_kernelB : Kernel Unit :=
  Kernel.make () c7_ptype "B" "def B(particle, grid, time, dt): pass"
    { args := ["particle", "grid", "time", "dt"], body := [] } ["particle"]

/-- C7 counterexample: the merged kernel's `name` is `"PAB"` while the
concatenation of the operand `name`s is `"PAPB"`; the decidable test of
the claimed equality evaluates to `false`. -/
theorem c7_counterexample :
    (c7_kernelA.merge c7_kernelB).name = "PAB" ∧
    c7_kernelA.name ++ c7_kernelB.name = "PAPB" ∧
    decide ((c7_kernelA.merge c7_kernelB).name = c7_kernelA.name ++ c7_kernelB.name) = false := by
  refine ⟨by decide, by decide, by decide⟩

/-- C7 corrected: `A + B` produces a new Kernel whose `funcname` is
`A.funcname ++ B.funcname` and whose `name` attribute is
`ptype.name ++ A.funcname ++ B.funcname` (not `A.name ++ B.name`); its
body is the concatenation of the two statement lists under a single
synthetic header reusing the parameter list of `A`, and its recorded
source is `A.funccode ++ B.funccode`. -/
theorem c7_merge_components {G : Type} (A B : Kernel G) :
    (A.merge B).funcname = A.funcname ++ B.funcname ∧
    (A.merge B).name = A.ptype.name ++ (A.funcname ++ B.funcname) ∧
    (A.merge B).py_ast.body = A.py_ast.body ++ B.py_ast.body ∧
    (A.merge B).py_ast.args = A.py_ast.args ∧
    (A.merge B).funccode = A.funccode ++ B.funccode := by
  refine ⟨rfl, rfl, rfl, rfl, rfl⟩

/-- A kernel returning `Repeat` explicitly: the state is set to `Repeat`
and the loop continues with recomputed `dt_pos` and unadvanced time. -/
theorem pyBody_ret_repeat {G : Type} (k : PyFunc G) (g : G) (endtime sign dtp : ℚ)
    (p p1 : Particle)
    (hk : k p g p.time (sign * dtp) = (PyRes.ret (some ErrorCode.Repeat), p1)) :
    pyBody k g endtime sign p dtp
      = StepRes.cont { p1 with state := ErrorCode.Repeat }
          (dt_pos endtime { p1 with state := ErrorCode.Repeat }) := by
  simp [pyBody, hk, applyState]

/-- A kernel returning `None` or `Success`: the executor applies the state
update (`None` leaves the state alone), advances the time by
`sign * dt_pos` and continues with recomputed `dt_pos`. -/
theorem pyBody_ret_advance {G : Type} (k : PyFunc G) (g : G) (endtime sign dtp : ℚ)
    (res : Option ErrorCode) (p p1 : Particle)
    (hres : res = none ∨ res = some ErrorCode.Success)
    (hk : k p g p.time (sign * dtp) = (PyRes.ret res, p1)) :
    pyBody k g endtime sign p dtp
      = StepRes.cont (advanceTime sign dtp (applyState res p1))
          (dt_pos endtime (advanceTime sign dtp (applyState res p1))) := by
  rcases hres with h | h <;> subst h <;> simp [pyBody, hk]

/-- Unfolding one `continue` iteration of the inner loop. -/
theorem pyLoop_succ_cont {G : Type} (k : PyFunc G) (g : G) (endtime sign : ℚ)
    (n : ℕ) (p : Particle) (dtp : ℚ) (p1 : Particle) (dtp1 : ℚ)
    (h : 0 < dtp) (hb : pyBody k g endtime sign p dtp = StepRes.cont p1 dtp1) :
    pyLoop k g endtime sign (n + 1) p dtp = pyLoop k g endtime sign n p1 dtp1 := by
  simp [pyLoop, h, hb]

/-- The core loop on a one-particle set reduces to the inner loop. -/
theorem execute_python_one {G : Type} (k : PyFunc G) (g : G) (endtime dt : ℚ)
    (fuel : ℕ) (p q : Particle)
    (h : pyLoop k g endtime (if 0 < dt then 1 else -1) fuel p (dt_pos endtime p) = some q) :
    execute_python k g endtime dt fuel [p] = some [q] := by
  show List.mapM _ [p] = some [q]
  rw [List.mapM_cons, h]
  rfl

/-- C8 counterexample: the executor only writes `p.state` on an explicit
kernel return (kernel.py lines 137-138), so a successful advance triggered
by a `None` return leaves the previous state in place. Concretely, the
kernel returns `Repeat` once (state becomes `Repeat`) and `None` next; the
second iteration advances `p.time` by `sign * dt_remaining` — a successful
advance — yet the state immediately after it is still `Repeat`, not
`Success`, and the full run of `execute_python` ends with state `Repeat`. -/
theorem c8_counterexample :
    pyBody c8_kernel () 1 1 c8_mid 1 = StepRes.cont c8_final (dt_pos 1 c8_final) ∧
    c8_final.time = c8_mid.time + 1 * 1 ∧
    c8_final.state = ErrorCode.Repeat ∧
    execute_python c8_kernel () 1 1 3 [c8_particle] = some [c8_final] := by
  have h01 : (0 : ℚ) < 1 := by norm_num
  have hn0 : ¬ (0 : ℚ) < 0 := by norm_num
  have hb1 : pyBody c8_kernel () 1 1 c8_particle 1
      = StepRes.cont c8_mid (dt_pos 1 c8_mid) :=
    pyBody_ret_repeat c8_kernel () 1 1 1 c8_particle { c8_particle with uvar := 1 } rfl
  have hd1 : dt_pos 1 c8_mid = 1 := by norm_num [dt_pos, rmin, rabs, c8_mid]
  have hb2 : pyBody c8_kernel () 1 1 c8_mid 1
      = StepRes.cont (advanceTime 1 1 (applyState none c8_mid))
          (dt_pos 1 (advanceTime 1 1 (applyState none c8_mid))) :=
    pyBody_ret_advance c8_kernel () 1 1 1 none c8_mid c8_mid (Or.inl rfl) rfl
  have hadv : advanceTime 1 1 (applyState none c8_mid) = c8_final := by
    norm_num [advanceTime, applyState, c8_mid, c8_final]
  rw [hadv] at hb2
  have hd2 : dt_pos 1 c8_final = 0 := by norm_num [dt_pos, rmin, rabs, c8_final]
  have hd0 : dt_pos 1 c8_particle = 1 := by norm_num [dt_pos, rmin, rabs, c8_particle]
  have hloop : pyLoop c8_kernel () 1 1 3 c8_particle 1 = some c8_final := by
    rw [show (3 : ℕ) = 2 + 1 from rfl,
      pyLoop_succ_cont c8_kernel () 1 1 2 c8_particle 1 c8_mid (dt_pos 1 c8_mid) h01 hb1,
      hd1,
      show (2 : ℕ) = 1 + 1 from rfl,
      pyLoop_succ_cont c8_kernel () 1 1 1 c8_mid 1 c8_final (dt_pos 1 c8_final) h01 hb2,
      hd2]
    exact pyLoop_of_nonpos c8_kernel () 1 1 1 c8_final 0 hn0
  refine ⟨hb2, by norm_num [c8_mid, c8_final], rfl, ?_⟩
  refine execute_python_one c8_kernel () 1 1 3 c8_particle c8_final ?_
  rw [if_pos h01, hd0]
  exact hloop

/-- C8 corrected: immediately after a successful advance the particle
state equals the explicitly returned code when the kernel returned
`Success`, and is unchanged from its value after the kernel invocation
when the kernel returned no explicit code (`None`); it equals `Success`
for every prior state only in the explicit-`Success` case. -/
theorem c8_amended {G : Type} (k : PyFunc G) (g : G) (endtime sign dtp : ℚ)
    (res : Option ErrorCode) (p p1 : Particle)
    (hres : res = none ∨ res = some ErrorCode.Success)
    (hk : k p g p.time (sign * dtp) = (PyRes.ret res, p1)) :
    pyBody k g endtime sign p dtp
      = StepRes.cont (advanceTime sign dtp (applyState res p1))
          (dt_pos endtime (advanceTime sign dtp (applyState res p1))) ∧
    (advanceTime sign dtp (applyState res p1)).state
      = (match res with | none => p1.state | some r => r) := by
  refine ⟨pyBody_ret_advance k g endtime sign dtp res p p1 hres hk, ?_⟩
  rcases hres with h | h <;> subst h <;> simp [advanceTime, applyState]

/-- Witness for the corrected C8: a `None`-returning kernel advances the
particle while keeping its previous state. -/
theorem c8_amended_witness :
    pyBody (kNone (G := Unit)) () 1 1 c8_mid 1
      = StepRes.cont (advanceTime 1 1 (applyState none c8_mid))
          (dt_pos 1 (advanceTime 1 1 (applyState none c8_mid))) ∧
    (advanceTime 1 1 (applyState none c8_mid)).state = c8_mid.state :=
  c8_amended kNone () 1 1 1 none c8_mid c8_mid (Or.inl rfl) rfl

/-- Every entry of the tail of a dash-joined list, each prefixed by the
separator. -/
def dash_tail : List String → String
  | [] => ""
  | a :: as => "-" ++ a ++ dash_tail as

/-- The accumulator worker of `String.intercalate` appends exactly the
dash-prefixed tail. -/
theorem intercalate_go_eq (l : List String) :
    ∀ acc, String.intercalate.go acc "-" l = acc ++ dash_tail l := by
  induction l with
  | nil => intro acc; simp [String.intercalate.go, dash_tail]
  | cons a as ih =>
    intro acc
    simp [String.intercalate.go, dash_tail, ih, String.append_assoc]

/-- Unfolding of the spec-worded join on a non-empty list. -/
theorem spec_join_entries_cons (x : String × FieldUnits) :
    ∀ rest, spec_join_entries (x :: rest)
      = (x.1 ++ ":" ++ x.2.class_name)
        ++ dash_tail (rest.map (fun nf => nf.1 ++ ":" ++ nf.2.class_name)) := by
  intro rest
  induction rest generalizing x with
  | nil => simp [spec_join_entries, dash_tail]
  | cons y r ih =>
    show (x.1 ++ ":" ++ x.2.class_name ++ "-" ++ spec_join_entries (y :: r)) = _
    rw [ih y]
    simp [dash_tail, String.append_assoc]

/-- The source `"-".join` equals the spec-worded recursive join. -/
theorem field_keys_eq_spec_join (fa : List (String × FieldUnits)) :
    field_keys fa = spec_join_entries fa := by
  cases fa with
  | nil => rfl
  | cons x rest =>
    show String.intercalate.go (x.1 ++ ":" ++ x.2.class_name) "-"
        (rest.map (fun nf => nf.1 ++ ":" ++ nf.2.class_name)) = _
    rw [intercalate_go_eq, spec_join_entries_cons]

/-- C9: For every JIT kernel, the compile-cache key equals the MD5 hex
digest of the kernel name concatenated with the ParticleType cache-key
string concatenated with the dash-joined list of
`field_name ":" unit_tag_class_name` entries over the fields the kernel
references: the source `_cache_key` computation coincides with the spec
formula `md5( name || ptype._cache_key || "-".join(...) )`. -/
theorem c9_cache_key_follows_spec (k : JitKernel) :
    k.cache_key = spec_cache_key k := by
  unfold JitKernel.cache_key spec_cache_key
  rw [field_keys_eq_spec_join]

set_option maxRecDepth 40000 in
/-- Validation of the MD5 model against the standard digest of `"abc"`. -/
theorem md5_hexdigest_abc :
    MD5.hexdigest "abc" = "900150983cd24fb0d6963f7d28e17f72" := by decide

set_option maxRecDepth 40000 in
/-- Validation of the MD5 model against the digest of the empty string. -/
theorem md5_hexdigest_empty :
    MD5.hexdigest "" = "d41d8cd98f00b204e9800998ecf8427e" := by decide

/-- A concrete JIT kernel with two referenced fields. -/
def c9_example_kernel : JitKernel :=
  { name := "PAdvectionRK4", ptype_cache_key := "ptkey",
    field_args := [("U", { class_name := "UnitConverter" }),
                   ("V", { class_name := "UnitConverter" })] }

set_option maxRecDepth 100000 in
/-- Validation: the cache key of the concrete kernel equals the reference
MD5 digest of
`"PAdvectionRK4ptkeyU:UnitConverter-V:UnitConverter"`. -/
theorem c9_example_cache_key :
    c9_example_kernel.cache_key = "b5182b738d4e4060c8c345309c751380" := by decide

/-- When the recovery loop returns normally, the error set of the returned
particle list is empty: the `while` condition failed. -/
theorem execute_loop_ok_empty {G : Type} (k : PyFunc G) (g : G) (endtime dt : ℚ)
    (rmap : ErrorCode → Option (Particle → Particle)) (fuelI : ℕ) :
    ∀ (n : ℕ) (ps qs : List Particle),
      execute_loop k g endtime dt rmap fuelI n ps = ExecRes.ok qs →
      error_particles qs = [] := by
  intro n
  induction n with
  | zero =>
    intro ps qs h
    simp only [execute_loop] at h
    split at h
    · exact absurd h (by simp)
    · next hc =>
      cases h
      have h0 : (error_particles ps).length = 0 := by omega
      exact List.length_eq_zero.mp h0
  | succ n ih =>
    intro ps qs h
    simp only [execute_loop] at h
    split at h
    · cases hrec : apply_recovery rmap ps with
      | none => simp only [hrec] at h; exact absurd h (by simp)
      | some ps1 =>
        simp only [hrec] at h
        cases hx : execute_python k g endtime dt fuelI (remove_deleted ps1) with
        | none => simp only [hx] at h; exact absurd h (by simp)
        | some ps2 =>
          simp only [hx] at h
          exact ih ps2 qs h
    · next hc =>
      cases h
      have h0 : (error_particles ps).length = 0 := by omega
      exact List.length_eq_zero.mp h0

/-- C10: Whenever `Kernel.execute` returns normally, every particle still
present in the particle set has state `Success` or `Repeat`: no particle
with state `Delete`, `ErrorOutOfBounds` or `Error` remains after `execute`
completes. -/
theorem c10_normal_return_states {G : Type} (k : PyFunc G) (g : G)
    (endtime dt : ℚ) (recovery : List (ErrorCode × (Particle → Particle)))
    (fuelI fuelO : ℕ) (ps qs : List Particle)
    (h : execute k g endtime dt recovery fuelI fuelO ps = ExecRes.ok qs) :
    ∀ p ∈ qs, p.state = ErrorCode.Success ∨ p.state = ErrorCode.Repeat := by
  have hempty : error_particles qs = [] := by
    simp only [execute] at h
    cases hx : execute_python k g endtime dt fuelI ps with
    | none => simp only [hx] at h; exact absurd h (by simp)
    | some ps1 =>
      simp only [hx] at h
      exact execute_loop_ok_empty k g endtime dt
        (updateMap recovery_base_map recovery) fuelI fuelO (remove_deleted ps1) qs h
  intro p hp
  by_contra hcon
  have hmem : p ∈ error_particles qs :=
    List.mem_filter.mpr ⟨hp, by simpa using hcon⟩
  rw [hempty] at hmem
  exact absurd hmem (List.not_mem_nil p)

/-- Witness for C10: a concrete normal run of `execute` whose surviving
particle has state `Success`. -/
theorem c10_witness :
    execute (kNone (G := Unit)) () 2 1 [] 1 1 [c10_particle] = ExecRes.ok [c10_particle] ∧
    (c10_particle.state = ErrorCode.Success ∨ c10_particle.state = ErrorCode.Repeat) := by
  have hd : dt_pos 2 c10_particle = 0 := by norm_num [dt_pos, rmin, rabs, c10_particle]
  have hn0 : ¬ (0 : ℚ) < 0 := by norm_num
  have hloop : pyLoop (kNone (G := Unit)) () 2 (if (0 : ℚ) < 1 then 1 else -1) 1 c10_particle
      (dt_pos 2 c10_particle) = some c10_particle := by
    rw [hd]
    exact pyLoop_of_nonpos kNone () 2 _ 1 c10_particle 0 hn0
  have hcore : execute_python (kNone (G := Unit)) () 2 1 1 [c10_particle] = some [c10_particle] :=
    execute_python_one kNone () 2 1 1 c10_particle c10_particle hloop
  have hrd : remove_deleted [c10_particle] = [c10_particle] := by
    simp [remove_deleted, c10_particle]
  have herr : error_particles [c10_particle] = [] := by
    simp [error_particles, c10_particle]
  have hexec : execute (kNone (G := Unit)) () 2 1 [] 1 1 [c10_particle]
      = ExecRes.ok [c10_particle] := by
    simp only [execute, hcore, hrd]
    simp [execute_loop, herr]
  exact ⟨hexec, c10_normal_return_states kNone () 2 1 [] 1 1 [c10_particle] [c10_particle]
    hexec c10_particle (by simp)⟩

end Parcels
